import Mathlib

/-!
Verification development for the `ui-development-power` repository.

Part 1 embeds the repository's release-validation script
(`scripts/validate`-style script shipped alongside `tests/README.md`):
a sequence of `check(name, condition, details)` calls over the state of
the inspected files, ending in `process.exit(0)` when no check failed and
`process.exit(1)` otherwise.

Part 2 models the context-routing core (Registry, Matcher, Loader,
Session, Capability Gate, startup validation) whose code is not shipped
in the repository; those definitions are modelled from the spec and are
marked as such in their doc comments.
-/

/-! ## Part 1: the validation script -/

/-- Model of a JavaScript runtime value, restricted to what the
validation script observes: truthiness, `Array.isArray`, and property
access (which throws a `TypeError` on `undefined`/`null` receivers). -/
inductive JVal where
  | undefined : JVal
  | jnull : JVal
  | jbool : Bool → JVal
  | jnum : Int → JVal
  | jstr : String → JVal
  | jarr : List JVal → JVal
  | jobj : List (String × JVal) → JVal
deriving Repr, Inhabited

/-- JavaScript truthiness (`!!v`). -/
def JVal.truthy : JVal → Bool
  | .undefined => false
  | .jnull => false
  | .jbool b => b
  | .jnum n => decide (n ≠ 0)
  | .jstr s => decide (s ≠ "")
  | .jarr _ => true
  | .jobj _ => true

/-- JavaScript `Array.isArray`. -/
def JVal.isArray : JVal → Bool
  | .jarr _ => true
  | _ => false

/-- JavaScript property access `v[k]`: throws `TypeError` on
`undefined`/`null`, returns the field of an object (or `undefined` when
absent), and returns `undefined` on other primitives. -/
def JVal.getField : JVal → String → Except String JVal
  | .undefined, _ => .error "TypeError"
  | .jnull, _ => .error "TypeError"
  | .jobj fields, k => .ok ((fields.lookup k).getD .undefined)
  | _, _ => .ok .undefined

/-- JavaScript optional-chained access `v?.[k]`: never throws; yields
`undefined` when the receiver is `undefined`/`null` or not an object. -/
def JVal.optField : JVal → String → JVal
  | .jobj fields, k => (fields.lookup k).getD .undefined
  | _, _ => .undefined

/-- State of the files the script inspects: `content p = some s` when
path `p` exists with body `s`, `none` when it does not exist. -/
structure FS where
  content : String → Option String

/-- Model of `existsSync`. -/
def FS.existsSync (fs : FS) (p : String) : Bool :=
  (fs.content p).isSome

/-- Model of `readFileSync`: succeeds exactly on existing paths, throws
`ENOENT` otherwise. -/
def FS.readFileSync (fs : FS) (p : String) : Except String String :=
  match fs.content p with
  | some s => .ok s
  | none => .error "ENOENT"

/-- One recorded `check(name, condition, details)` call of the script. -/
structure CheckRec where
  name : String
  ok : Bool
  details : String
deriving Repr, DecidableEq

/-- The script's `check` helper: records the check; the pass/fail
counters and the console lines are derived from the recorded list
(`failedChecks`, `outputOf` below), exactly as the script's counters and
`console.log` calls are driven by its `check` calls. -/
def check (name : String) (cond : Bool) (details : String)
    (st : List CheckRec) : List CheckRec :=
  st ++ [⟨name, cond, details⟩]

/-- The console line printed for one check. -/
def checkLine (c : CheckRec) : String :=
  (if c.ok then "✅ " else "❌ ") ++ c.name

/-- The check-result lines the script prints, in order (decorative
section headers and the final summary are not modelled; they carry no
check outcome). Each check prints its line, then its details indented. -/
def outputOf (cs : List CheckRec) : List String :=
  cs.flatMap (fun c => checkLine c :: (if c.details = "" then [] else ["   " ++ c.details]))

/-- The script's `failedChecks` counter. -/
def failedChecks (cs : List CheckRec) : Nat :=
  (cs.filter (fun c => !c.ok)).length

/-- The script's exit code: `process.exit(0)` when `failedChecks === 0`,
`process.exit(1)` otherwise. -/
def exitCode (cs : List CheckRec) : Nat :=
  if failedChecks cs = 0 then 0 else 1

/-- Model of `path.join` with the script's `rootDir` as the empty root. -/
def joinPath (a b : String) : String :=
  if a = "" then b else a ++ "/" ++ b

def rootDir : String := ""

def powerDir : String := joinPath rootDir "power"

/-- Boolean contiguous-sublist test (computable rendering of `<:+:`,
proved equivalent below). -/
def listInfix {α : Type} [BEq α] (xs : List α) : List α → Bool
  | [] => xs.isEmpty
  | y :: ys => xs.isPrefixOf (y :: ys) || listInfix xs ys

/-- JavaScript `String.prototype.includes`. -/
def jsIncludes (s sub : String) : Bool :=
  listInfix sub.data s.data

def requiredRootFiles : List String :=
  ["README.md", "LICENSE", "CONTRIBUTING.md", "CHANGELOG.md", "package.json",
   "vitest.config.js"]

def requiredPowerFiles : List String :=
  ["POWER.md", "mcp.json"]

def requiredSteeringFiles : List String :=
  ["ui-design-principles.md", "accessibility-standards.md", "design-systems-guide.md",
   "component-libraries.md", "figma-to-code-workflow.md", "responsive-design-patterns.md",
   "color-typography-spacing.md", "accessibility-testing.md", "browser-testing-workflow.md",
   "micro-interactions.md", "form-design-patterns.md", "performance-optimization.md"]

def exampleFiles : List String :=
  ["accessible-form.md", "figma-to-react.md", "responsive-layout.md"]

def testDirs : List String :=
  ["tests/unit", "tests/property"]

def testFiles : List String :=
  ["tests/unit/file-structure.test.js", "tests/unit/configuration.test.js",
   "tests/unit/content-validation.test.js"]

/-- The script's effect monad: an exception layered over the mutable
check log. The state lives outside the exception, so checks recorded
before a thrown error persist when the error is caught — exactly the
behavior of the script's global counters and `console.log` calls. -/
def SM (α : Type) : Type := List CheckRec → Except String α × List CheckRec

instance : Monad SM where
  pure a := fun st => (.ok a, st)
  bind x f := fun st =>
    match x st with
    | (.ok a, st') => f a st'
    | (.error e, st') => (.error e, st')

/-- JavaScript `try { body } catch (e) { handler }`: a caught exception
resumes from the log as mutated so far. -/
def jsTry {α : Type} (body : SM α) (handler : String → SM α) : SM α :=
  fun st =>
    match body st with
    | (.ok a, st') => (.ok a, st')
    | (.error e, st') => handler e st'

/-- Run a script fragment on a check log: resulting outcome and log. -/
def runSM {α : Type} (x : SM α) (st : List CheckRec) : Except String α × List CheckRec :=
  x st

/-- The script's `check(name, condition, details)` call. -/
def checkM (name : String) (cond : Bool) (details : String) : SM Unit :=
  fun st => (.ok (), check name cond details st)

/-- A fallible native call (`readFileSync`, `JSON.parse`, property
access) lifted into the script's monad. -/
def liftE {α : Type} (e : Except String α) : SM α :=
  fun st => (e, st)

/-- Script section 1: File Structure Validation (pure `existsSync` checks). -/
def fileStructureChecks (fs : FS) : SM Unit := do
  requiredRootFiles.forM (fun file =>
    checkM (file ++ " exists") (fs.existsSync (joinPath rootDir file)) "")
  requiredPowerFiles.forM (fun file =>
    checkM ("power/" ++ file ++ " exists") (fs.existsSync (joinPath powerDir file)) "")

/-- Script section 2: Steering Files Validation. Each file gets an
existence check; when it exists its content is read and its length
checked. -/
def steeringChecks (fs : FS) : SM Unit :=
  requiredSteeringFiles.forM (fun file => do
    let path := joinPath (joinPath powerDir "steering") file
    let ex := fs.existsSync path
    checkM ("power/steering/" ++ file) ex ""
    if ex then
      let content ← liftE (fs.readFileSync path)
      checkM ("  " ++ file ++ " has content") (decide (100 < content.length))
        (toString content.length ++ " bytes")
    else
      pure ())

/-- Script section 3: POWER.md Validation, guarded by `existsSync`. -/
def powerMdChecks (fs : FS) : SM Unit := do
  let powerPath := joinPath powerDir "POWER.md"
  if fs.existsSync powerPath then
    let powerContent ← liftE (fs.readFileSync powerPath)
    checkM "Has YAML frontmatter" (powerContent.startsWith "---") ""
    checkM "Contains name field" (jsIncludes powerContent "name:") ""
    checkM "Contains displayName field" (jsIncludes powerContent "displayName:") ""
    checkM "Contains description field" (jsIncludes powerContent "description:") ""
    checkM "Contains keywords field" (jsIncludes powerContent "keywords:") ""
    checkM "Contains mcpServers field" (jsIncludes powerContent "mcpServers:") ""
    checkM "Has Overview section" (jsIncludes powerContent "## Overview") ""
    checkM "Has Onboarding section" (jsIncludes powerContent "## Onboarding") ""
    checkM "Has Core Principles section" (jsIncludes powerContent "## Core Principles") ""
    checkM "Has Quick Reference section" (jsIncludes powerContent "## Quick Reference") ""
    let hasKeywords := jsIncludes powerContent "\"ui\"" || jsIncludes powerContent "- ui"
    checkM "Has comprehensive keywords" hasKeywords "Keywords present"
  else
    pure ()

/-- Script section 4: MCP Server Configuration. The whole body after the
`existsSync` guard sits in a `try` whose `catch` records a single failed
check carrying the error message; `JSON.parse` failure and the
`TypeError` thrown by `.figma` access on a missing `mcpServers` object
both land there, keeping every check recorded before the throw. -/
def mcpChecks (parse : String → Option JVal) (fs : FS) : SM Unit := do
  let mcpPath := joinPath powerDir "mcp.json"
  if fs.existsSync mcpPath then
    jsTry
      (do
        let raw ← liftE (fs.readFileSync mcpPath)
        let mcpConfig ← liftE (match parse raw with
          | some v => .ok v
          | none => .error "SyntaxError")
        checkM "Valid JSON structure" mcpConfig.truthy ""
        let servers ← liftE (mcpConfig.getField "mcpServers")
        checkM "Has mcpServers object" servers.truthy ""
        let figma ← liftE (servers.getField "figma")
        checkM "Configures Figma server" figma.truthy ""
        let chrome ← liftE (servers.getField "chrome-devtools")
        checkM "Configures Chrome DevTools server" chrome.truthy ""
        if figma.truthy then
          let cmd ← liftE (figma.getField "command")
          checkM "  Figma has command" cmd.truthy ""
          let args ← liftE (figma.getField "args")
          checkM "  Figma has args" args.isArray ""
          let env ← liftE (figma.getField "env")
          checkM "  Figma has env" env.truthy ""
        else
          pure ()
        if chrome.truthy then
          let cmd ← liftE (chrome.getField "command")
          checkM "  Chrome DevTools has command" cmd.truthy ""
          let args ← liftE (chrome.getField "args")
          checkM "  Chrome DevTools has args" args.isArray ""
        else
          pure ())
      (fun e => checkM "MCP JSON is valid" false e)
  else
    pure ()

/-- Script section 5: Examples (pure `existsSync` checks). -/
def examplesChecks (fs : FS) : SM Unit :=
  exampleFiles.forM (fun file =>
    checkM ("power/examples/" ++ file)
      (fs.existsSync (joinPath (joinPath powerDir "examples") file)) "")

/-- Script section 6, README block, guarded by `existsSync`. -/
def readmeChecks (fs : FS) : SM Unit := do
  let readmePath := joinPath rootDir "README.md"
  if fs.existsSync readmePath then
    let readme ← liftE (fs.readFileSync readmePath)
    checkM "README has title" (jsIncludes readme "# UI Development") ""
    checkM "README has installation"
      (jsIncludes readme "## Installation" || jsIncludes readme "## 📦 Installation") ""
    checkM "README has usage"
      (jsIncludes readme "## Usage" || jsIncludes readme "## Quick Start" ||
       jsIncludes readme "## 🚀 Quick Start" || jsIncludes readme "## 💡 Usage Examples") ""
    checkM "README has features"
      (jsIncludes readme "## Features" || jsIncludes readme "## ✨ Features") ""
  else
    pure ()

/-- Script section 6, CONTRIBUTING block, guarded by `existsSync`. -/
def contributingChecks (fs : FS) : SM Unit := do
  let contributingPath := joinPath rootDir "CONTRIBUTING.md"
  if fs.existsSync contributingPath then
    let contributing ← liftE (fs.readFileSync contributingPath)
    checkM "CONTRIBUTING has guidelines" (decide (100 < contributing.length)) ""
  else
    pure ()

/-- Script section 6, CHANGELOG block, guarded by `existsSync`. -/
def changelogChecks (fs : FS) : SM Unit := do
  let changelogPath := joinPath rootDir "CHANGELOG.md"
  if fs.existsSync changelogPath then
    let changelog ← liftE (fs.readFileSync changelogPath)
    checkM "CHANGELOG has version"
      (jsIncludes changelog "0.1.0" || jsIncludes changelog "[0.1.0]" ||
       jsIncludes changelog "1.0.0" || jsIncludes changelog "[1.0.0]") ""
  else
    pure ()

/-- Script section 6: Documentation, each read guarded by `existsSync`. -/
def docsChecks (fs : FS) : SM Unit := do
  readmeChecks fs
  contributingChecks fs
  changelogChecks fs

/-- Script section 7: Package Configuration, with the `JSON.parse` and
field accesses inside a `try` whose `catch` records one failed check. -/
def packageChecks (parse : String → Option JVal) (fs : FS) : SM Unit := do
  let packagePath := joinPath rootDir "package.json"
  if fs.existsSync packagePath then
    jsTry
      (do
        let raw ← liftE (fs.readFileSync packagePath)
        let pkg ← liftE (match parse raw with
          | some v => .ok v
          | none => .error "SyntaxError")
        let nm ← liftE (pkg.getField "name")
        checkM "Has name" nm.truthy ""
        let ver ← liftE (pkg.getField "version")
        checkM "Has version" ver.truthy ""
        let desc ← liftE (pkg.getField "description")
        checkM "Has description" desc.truthy ""
        let scripts ← liftE (pkg.getField "scripts")
        checkM "Has test script" (scripts.optField "test").truthy ""
        let dev ← liftE (pkg.getField "devDependencies")
        checkM "Has fast-check dependency" (dev.optField "fast-check").truthy ""
        checkM "Has vitest dependency" (dev.optField "vitest").truthy "")
      (fun e => checkM "package.json is valid" false e)
  else
    pure ()

/-- Script section 8: Test Infrastructure (pure `existsSync` checks). -/
def testInfraChecks (fs : FS) : SM Unit := do
  testDirs.forM (fun dir =>
    checkM (dir ++ " directory exists") (fs.existsSync (joinPath rootDir dir)) "")
  testFiles.forM (fun file =>
    checkM file (fs.existsSync (joinPath rootDir file)) "")

/-- The whole validation script: sections run in order on the global
check log; `parse` stands for `JSON.parse` (`none` = it throws). -/
def validationScript (parse : String → Option JVal) (fs : FS) : SM Unit := do
  fileStructureChecks fs
  steeringChecks fs
  powerMdChecks fs
  mcpChecks parse fs
  examplesChecks fs
  docsChecks fs
  packageChecks parse fs
  testInfraChecks fs

/-- Outcome and recorded checks of one run of the script on a
file-system state, starting from the empty log. -/
def runValidation (parse : String → Option JVal) (fs : FS) :
    Except String Unit × List CheckRec :=
  runSM (validationScript parse fs) []

/-- The checks the script records on a given file-system state. -/
def runChecks (parse : String → Option JVal) (fs : FS) : List CheckRec :=
  (runValidation parse fs).2


/-! ## Part 2: the context-routing core

The repository ships no implementation of the routing core; its data
live as prose front-matter (POWER.md keywords, the steering-file table)
and the spec defines the components. The definitions below are modelled
from the spec, as recorded in each doc comment. -/

/-- Modelled from the spec: a `KnowledgeModule` registry entry (spec
section 3) with `id`, case-insensitive keyword phrases, `category`,
tie-break `priority`, and `contentRef` modelled as the resolved body
(`none` = resolution fails, content missing/unreadable). -/
structure KnowledgeModule where
  id : String
  keywords : List String
  category : String
  priority : Int
  content : Option String
deriving Repr, DecidableEq

/-- Modelled from the spec: a `MatchResult` (spec section 3). -/
structure MatchResult where
  moduleId : String
  score : Nat
  matchedKeywords : List String
deriving Repr, DecidableEq

/-- ASCII lowercasing of one character. -/
def lowerChar (c : Char) : Char :=
  if 'A' ≤ c ∧ c ≤ 'Z' then Char.ofNat (c.toNat + 32) else c

/-- Split a character stream into words (maximal non-whitespace runs),
carrying the current word reversed. -/
def wordsAux : List Char → List Char → List String
  | [], acc => if acc.isEmpty then [] else [⟨acc.reverse⟩]
  | c :: rest, acc =>
    if c.isWhitespace then
      if acc.isEmpty then wordsAux rest [] else ⟨acc.reverse⟩ :: wordsAux rest []
    else
      wordsAux rest (c :: acc)

/-- Modelled from the spec: query normalization (spec section 4.1) —
lowercase, collapse whitespace — represented as the list of words of the
normalized query. -/
def normalizeWords (s : String) : List String :=
  wordsAux (s.data.map lowerChar) []

/-- Modelled from the spec: `weight(keyword) = number of words in the
keyword phrase` (spec section 4.1). -/
def weight (kw : String) : Nat :=
  (normalizeWords kw).length

/-- Modelled from the spec: phrase containment (spec section 4.1) — the
keyword matches when its words occur contiguously, delimited by word
boundaries, in the normalized query. -/
def keywordMatches (q kw : String) : Bool :=
  listInfix (normalizeWords kw) (normalizeWords q)

/-- Modelled from the spec: the module's keywords found in the query. -/
def matchedKeywords (q : String) (m : KnowledgeModule) : List String :=
  m.keywords.filter (fun kw => keywordMatches q kw)

/-- Modelled from the spec: `score(module) = sum over matched keywords
of weight(keyword)` (spec section 4.1). -/
def scoreModule (q : String) (m : KnowledgeModule) : Nat :=
  ((matchedKeywords q m).map weight).sum

/-- Modelled from the spec: the `MatchResult` produced for one module. -/
def matchResultOf (q : String) (m : KnowledgeModule) : MatchResult :=
  ⟨m.id, scoreModule q m, matchedKeywords q m⟩

/-- Modelled from the spec: the designated default module — the
general-guidance steering file of the source's fallback row
("General UI/UX (default fallback) loads ui-design-principles.md"). -/
def defaultModuleId : String := "ui-design-principles.md"

/-- Modelled from the spec: the fallback result returned when nothing
clears the threshold; it matched no keyword, so its score is 0. -/
def defaultMatchResult : MatchResult := ⟨defaultModuleId, 0, []⟩

/-- Modelled from the spec: the sort order — descending score, ties by
ascending priority, stable for registration order (spec section 4.1). -/
def matchLE (a b : KnowledgeModule × MatchResult) : Bool :=
  (decide (b.2.score < a.2.score)) ||
    ((a.2.score == b.2.score) && decide (a.1.priority ≤ b.1.priority))

/-- Modelled from the spec: the Matcher with an explicit bound `K` —
score every entry, drop score-0 modules, stable-sort (insertion sort is
stable, so registration order breaks remaining ties), take `K`, and fall
back to the single default module when the bounded list is empty. -/
def matchK (K : Nat) (q : String) (registry : List KnowledgeModule) : List MatchResult :=
  let scored := registry.map (fun m => (m, matchResultOf q m))
  let positive := scored.filter (fun p => p.2.score != 0)
  let sorted := List.insertionSort (fun a b => matchLE a b = true) positive
  let bounded := (sorted.map (fun p => p.2)).take K
  if bounded.isEmpty then [defaultMatchResult] else bounded

/-- Modelled from the spec: the configured per-turn cap (`K`, e.g. 3). -/
def matchBound : Nat := 3

/-- Modelled from the spec: `match(query, registry)` at the configured
cap (named `matchQuery` because `match` is reserved in Lean). -/
def matchQuery (q : String) (registry : List KnowledgeModule) : List MatchResult :=
  matchK matchBound q registry

/-- Modelled from the spec: per-conversation `Session` state (spec
section 3); `turnHistory` is diagnostic only and is recorded by the
caller with the turn's MatchResults, so `load` leaves it unchanged. -/
structure Session where
  loadedModuleIds : List String
  turnHistory : List (List MatchResult)
deriving Repr, DecidableEq

/-- Modelled from the spec: a `LoadedDocument` returned by the Loader. -/
structure LoadedDocument where
  moduleId : String
  content : String
deriving Repr, DecidableEq

/-- Modelled from the spec: `contentRef` resolution for a requested id:
find the module in the registry and resolve its content; `none` is the
`ModuleLoadError` case. -/
def resolveContent (registry : List KnowledgeModule) (mid : String) : Option String :=
  match registry.find? (fun m => m.id == mid) with
  | some m => m.content
  | none => none

/-- Modelled from the spec: the Loader's traversal of the requested ids,
accumulating loaded documents and failed ids (`ModuleLoadError` is
reported as a failed id rather than aborting the turn), and appending
each newly loaded id to the session's `loadedModuleIds`. -/
def loadGo (registry : List KnowledgeModule) :
    List String → List LoadedDocument → List String → Session →
    (List LoadedDocument × List String × Session)
  | [], docs, failed, s => (docs, failed, s)
  | mid :: rest, docs, failed, s =>
    if mid ∈ s.loadedModuleIds then
      loadGo registry rest docs failed s
    else
      match resolveContent registry mid with
      | some c =>
        loadGo registry rest (docs ++ [⟨mid, c⟩]) failed
          { s with loadedModuleIds := s.loadedModuleIds ++ [mid] }
      | none => loadGo registry rest docs (failed ++ [mid]) s

/-- Modelled from the spec: `load(moduleIds, session, registry)` (spec
section 4.2), returning the newly loaded documents, the failed ids, and
the updated session. -/
def load (moduleIds : List String) (s : Session) (registry : List KnowledgeModule) :
    List LoadedDocument × List String × Session :=
  loadGo registry moduleIds [] [] s

/-- Modelled from the spec: a `CapabilityDescriptor` (spec section 3) —
name, connector command and arguments, and the environment variable
names required for availability. -/
structure CapabilityDescriptor where
  name : String
  command : String
  args : List String
  requiredEnv : List String
deriving Repr, DecidableEq

/-- Modelled from the spec: a `CapabilityStatus` — availability plus the
reason's list of missing variables. -/
structure CapabilityStatus where
  name : String
  available : Bool
  missing : List String
deriving Repr, DecidableEq

/-- Environment snapshot: named variables and their values. -/
def envGet (env : List (String × String)) (k : String) : Option String :=
  (env.find? (fun p => p.1 == k)).map (fun p => p.2)

/-- Modelled from the spec: the variables of `requiredEnv` that are
absent or empty in the snapshot. -/
def missingVars (env : List (String × String)) (d : CapabilityDescriptor) : List String :=
  d.requiredEnv.filter (fun v =>
    match envGet env v with
    | some s => s == ""
    | none => true)

/-- Modelled from the spec: `availableCapabilities(table, env)` (spec
section 4.3) — available iff every required variable is present and
non-empty, otherwise unavailable with the missing variables listed. -/
def availableCapabilities (table : List CapabilityDescriptor)
    (env : List (String × String)) : List CapabilityStatus :=
  table.map (fun d => ⟨d.name, (missingVars env d).isEmpty, missingVars env d⟩)

/-- Modelled from the spec: one structural violation found by startup
validation (spec section 4.4). -/
inductive Violation where
  | duplicateModuleId : String → Violation
  | emptyKeywords : String → Violation
  | duplicateCapabilityName : String → Violation
  | emptyConnectorCommand : String → Violation
deriving Repr, DecidableEq

/-- Modelled from the spec: `validate(registry, capabilityTable)` (spec
section 4.4) — enumerates every violation found (not just the first):
duplicate module ids, empty keyword sets, duplicate capability names,
empty connector commands. -/
def validate (registry : List KnowledgeModule) (table : List CapabilityDescriptor) :
    List Violation :=
  (((registry.map (fun m => m.id)).filter
      (fun i => decide (1 < (registry.map (fun m => m.id)).count i))).map
    Violation.duplicateModuleId)
  ++ ((registry.filter (fun m => m.keywords.isEmpty)).map
    (fun m => Violation.emptyKeywords m.id))
  ++ (((table.map (fun c => c.name)).filter
      (fun n => decide (1 < (table.map (fun c => c.name)).count n))).map
    Violation.duplicateCapabilityName)
  ++ ((table.filter (fun c => c.command == "")).map
    (fun c => Violation.emptyConnectorCommand c.name))

/-! ## Concrete data

The registry below is read off the source's "When to Load Steering
Files" table (POWER.md): one module per steering file, keywords the
union of the trigger phrases of the rows that load it; priorities are
not given by the source, so all are 0. The general-guidance file
`ui-design-principles.md` is the designated default and carries no
trigger row of its own. -/

def uiRegistry : List KnowledgeModule :=
  [⟨"accessibility-standards.md",
    ["accessibility", "a11y", "wcag", "screen reader", "aria", "keyboard", "contrast",
     "form", "input", "validation", "error", "submit"],
    "accessibility", 0, some "accessibility-standards body"⟩,
   ⟨"accessibility-testing.md",
    ["accessibility", "a11y", "wcag", "screen reader", "aria", "keyboard", "contrast",
     "test", "testing", "chrome", "devtools", "debug", "visual regression", "lighthouse"],
    "accessibility", 0, some "accessibility-testing body"⟩,
   ⟨"component-libraries.md",
    ["component library", "chakra", "radix", "mui", "headless", "tailwind", "shadcn"],
    "component-library", 0, some "component-libraries body"⟩,
   ⟨"figma-to-code-workflow.md",
    ["figma", "design", "mockup", "wireframe", "design tokens"],
    "design", 0, some "figma-to-code-workflow body"⟩,
   ⟨"design-systems-guide.md",
    ["figma", "design", "mockup", "wireframe", "design tokens", "design system",
     "tokens", "consistency"],
    "design-system", 0, some "design-systems-guide body"⟩,
   ⟨"responsive-design-patterns.md",
    ["responsive", "mobile", "breakpoint", "mobile-first", "tablet", "desktop"],
    "responsive", 0, some "responsive-design-patterns body"⟩,
   ⟨"color-typography-spacing.md",
    ["design system", "design tokens", "tokens", "consistency"],
    "design-system", 0, some "color-typography-spacing body"⟩,
   ⟨"performance-optimization.md",
    ["performance", "optimization", "lazy loading", "slow", "fast"],
    "performance", 0, some "performance-optimization body"⟩,
   ⟨"form-design-patterns.md",
    ["form", "input", "validation", "error", "submit"],
    "forms", 0, some "form-design-patterns body"⟩,
   ⟨"micro-interactions.md",
    ["animation", "transition", "micro-interaction", "motion"],
    "animation", 0, some "micro-interactions body"⟩,
   ⟨"browser-testing-workflow.md",
    ["test", "testing", "chrome", "devtools", "debug", "visual regression", "lighthouse"],
    "testing", 0, some "browser-testing-workflow body"⟩]

/-- The component-library module of `uiRegistry`, named for reuse. -/
def componentLibrariesModule : KnowledgeModule :=
  ⟨"component-libraries.md",
   ["component library", "chakra", "radix", "mui", "headless", "tailwind", "shadcn"],
   "component-library", 0, some "component-libraries body"⟩

/-- A session at conversation start. -/
def emptySession : Session := ⟨[], []⟩

/-- Loader fixture: a registry where the middle module's content
resolution fails. -/
def loaderRegistry : List KnowledgeModule :=
  [⟨"alpha.md", ["alpha"], "general", 0, some "alpha body"⟩,
   ⟨"broken.md", ["broken"], "general", 0, none⟩,
   ⟨"gamma.md", ["gamma"], "general", 0, some "gamma body"⟩]

/-- The design-tool capability of the source's MCP declarations: the
Figma connector requires the `FIGMA_API_KEY` environment variable. -/
def figmaCapability : CapabilityDescriptor :=
  ⟨"figma", "npx", ["-y", "figma-developer-mcp", "--stdio"], ["FIGMA_API_KEY"]⟩

def envWithoutKey : List (String × String) := []

def envWithKey : List (String × String) := [("FIGMA_API_KEY", "token-123")]

/-- File-system state for the script counterexample: `power/mcp.json`
exists and holds the JSON text of an empty object; nothing else exists. -/
def fsNoMcpServers : FS :=
  ⟨fun p => if p = "power/mcp.json" then some "\x7b\x7d" else none⟩

/-- File-system state whose `power/mcp.json` holds an object with an
empty `mcpServers` object. -/
def fsEmptyServers : FS :=
  ⟨fun p => if p = "power/mcp.json" then some "\x7b\"mcpServers\":\x7b\x7d\x7d" else none⟩

/-- Restriction of `JSON.parse` to the two object literals used by the
counterexample states: the empty object, and an object whose only field
is an empty `mcpServers` object; everything else is treated as a parse
error, which those states never exercise. -/
def jsonParseLit (s : String) : Option JVal :=
  if s = "\x7b\x7d" then some (.jobj [])
  else if s = "\x7b\"mcpServers\":\x7b\x7d\x7d" then some (.jobj [("mcpServers", .jobj [])])
  else none

/-- A script fragment that runs to completion (no uncaught exception)
from every starting log. -/
def TotalSM {α : Type} (x : SM α) : Prop :=
  ∀ st, ∃ a st', x st = (Except.ok a, st')

/-! ## Theorems -/

theorem totalSM_pure {α : Type} (a : α) : TotalSM (pure a : SM α) :=
  fun st => ⟨a, st, rfl⟩

theorem totalSM_bind {α β : Type} {x : SM α} {f : α → SM β}
    (hx : TotalSM x) (hf : ∀ a, TotalSM (f a)) : TotalSM (x >>= f) := by
  intro st
  obtain ⟨a, st', h⟩ := hx st
  obtain ⟨b, st'', h'⟩ := hf a st'
  refine ⟨b, st'', ?_⟩
  show (match x st with
    | (Except.ok a, st') => f a st'
    | (Except.error e, st') => (Except.error e, st')) = _
  rw [h]
  exact h'

theorem totalSM_checkM (name : String) (cond : Bool) (details : String) :
    TotalSM (checkM name cond details) :=
  fun st => ⟨(), check name cond details st, rfl⟩

theorem totalSM_liftE {α : Type} {e : Except String α} {a : α} (h : e = .ok a) :
    TotalSM (liftE e) :=
  fun st => ⟨a, st, by rw [liftE, h]⟩

theorem totalSM_jsTry {α : Type} {x : SM α} {h : String → SM α}
    (hh : ∀ e, TotalSM (h e)) : TotalSM (jsTry x h) := by
  intro st
  rcases hx : x st with ⟨r, st'⟩
  cases r with
  | ok a =>
    refine ⟨a, st', ?_⟩
    show (match x st with
      | (Except.ok a, st') => (Except.ok a, st')
      | (Except.error e, st') => h e st') = _
    rw [hx]
  | error e =>
    obtain ⟨b, st'', h'⟩ := hh e st'
    refine ⟨b, st'', ?_⟩
    show (match x st with
      | (Except.ok a, st') => (Except.ok a, st')
      | (Except.error e, st') => h e st') = _
    rw [hx]
    exact h'

theorem totalSM_forM {α : Type} {f : α → SM Unit} (l : List α)
    (hf : ∀ a ∈ l, TotalSM (f a)) : TotalSM (l.forM f) := by
  induction l with
  | nil => exact fun st => ⟨(), st, rfl⟩
  | cons a as ih =>
    have key : (a :: as).forM f = f a >>= fun _ => as.forM f := rfl
    rw [key]
    exact totalSM_bind (hf a (List.mem_cons_self a as))
      (fun _ => ih (fun b hb => hf b (List.mem_cons_of_mem a hb)))

theorem FS.readFileSync_of_exists {fs : FS} {p : String} (h : fs.existsSync p = true) :
    ∃ s, fs.readFileSync p = .ok s := by
  unfold FS.existsSync at h
  rcases hc : fs.content p with _ | s
  · rw [hc] at h
    simp at h
  · exact ⟨s, by rw [FS.readFileSync, hc]⟩

theorem totalSM_ite {α : Type} {c : Prop} [Decidable c] {x y : SM α}
    (hx : c → TotalSM x) (hy : ¬c → TotalSM y) : TotalSM (if c then x else y) := by
  by_cases h : c
  · rw [if_pos h]
    exact hx h
  · rw [if_neg h]
    exact hy h

theorem totalSM_fileStructure (fs : FS) : TotalSM (fileStructureChecks fs) := by
  unfold fileStructureChecks
  exact totalSM_bind
    (totalSM_forM _ (fun _ _ => totalSM_checkM _ _ _))
    (fun _ => totalSM_forM _ (fun _ _ => totalSM_checkM _ _ _))

theorem totalSM_steering (fs : FS) : TotalSM (steeringChecks fs) := by
  unfold steeringChecks
  apply totalSM_forM
  intro file _
  apply totalSM_bind (totalSM_checkM _ _ _)
  intro _
  apply totalSM_ite
  · intro hex
    obtain ⟨s, hs⟩ := FS.readFileSync_of_exists hex
    exact totalSM_bind (totalSM_liftE hs) (fun _ => totalSM_checkM _ _ _)
  · intro _
    exact totalSM_pure ()

theorem totalSM_powerMd (fs : FS) : TotalSM (powerMdChecks fs) := by
  unfold powerMdChecks
  apply totalSM_ite
  · intro hex
    obtain ⟨s, hs⟩ := FS.readFileSync_of_exists hex
    apply totalSM_bind (totalSM_liftE hs)
    intro content
    repeat' apply totalSM_bind (totalSM_checkM _ _ _) (fun _ => ?_)
    exact totalSM_checkM _ _ _
  · intro _
    exact totalSM_pure ()

theorem totalSM_mcp (parse : String → Option JVal) (fs : FS) :
    TotalSM (mcpChecks parse fs) := by
  unfold mcpChecks
  apply totalSM_ite
  · intro _
    exact totalSM_jsTry (fun e => totalSM_checkM _ _ _)
  · intro _
    exact totalSM_pure ()

theorem totalSM_examples (fs : FS) : TotalSM (examplesChecks fs) := by
  unfold examplesChecks
  exact totalSM_forM _ (fun _ _ => totalSM_checkM _ _ _)

theorem totalSM_readme (fs : FS) : TotalSM (readmeChecks fs) := by
  unfold readmeChecks
  apply totalSM_ite
  · intro hex
    obtain ⟨s, hs⟩ := FS.readFileSync_of_exists hex
    apply totalSM_bind (totalSM_liftE hs)
    intro readme
    repeat' apply totalSM_bind (totalSM_checkM _ _ _) (fun _ => ?_)
    exact totalSM_checkM _ _ _
  · intro _
    exact totalSM_pure ()

theorem totalSM_contributing (fs : FS) : TotalSM (contributingChecks fs) := by
  unfold contributingChecks
  apply totalSM_ite
  · intro hex
    obtain ⟨s, hs⟩ := FS.readFileSync_of_exists hex
    exact totalSM_bind (totalSM_liftE hs) (fun _ => totalSM_checkM _ _ _)
  · intro _
    exact totalSM_pure ()

theorem totalSM_changelog (fs : FS) : TotalSM (changelogChecks fs) := by
  unfold changelogChecks
  apply totalSM_ite
  · intro hex
    obtain ⟨s, hs⟩ := FS.readFileSync_of_exists hex
    exact totalSM_bind (totalSM_liftE hs) (fun _ => totalSM_checkM _ _ _)
  · intro _
    exact totalSM_pure ()

theorem totalSM_docs (fs : FS) : TotalSM (docsChecks fs) := by
  unfold docsChecks
  apply totalSM_bind (totalSM_readme fs)
  intro _
  apply totalSM_bind (totalSM_contributing fs)
  intro _
  exact totalSM_changelog fs

theorem totalSM_package (parse : String → Option JVal) (fs : FS) :
    TotalSM (packageChecks parse fs) := by
  unfold packageChecks
  apply totalSM_ite
  · intro _
    exact totalSM_jsTry (fun e => totalSM_checkM _ _ _)
  · intro _
    exact totalSM_pure ()

theorem totalSM_testInfra (fs : FS) : TotalSM (testInfraChecks fs) := by
  unfold testInfraChecks
  exact totalSM_bind
    (totalSM_forM _ (fun _ _ => totalSM_checkM _ _ _))
    (fun _ => totalSM_forM _ (fun _ _ => totalSM_checkM _ _ _))

theorem totalSM_validationScript (parse : String → Option JVal) (fs : FS) :
    TotalSM (validationScript parse fs) := by
  unfold validationScript
  apply totalSM_bind (totalSM_fileStructure fs)
  intro _
  apply totalSM_bind (totalSM_steering fs)
  intro _
  apply totalSM_bind (totalSM_powerMd fs)
  intro _
  apply totalSM_bind (totalSM_mcp parse fs)
  intro _
  apply totalSM_bind (totalSM_examples fs)
  intro _
  apply totalSM_bind (totalSM_docs fs)
  intro _
  apply totalSM_bind (totalSM_package parse fs)
  intro _
  exact totalSM_testInfra fs

theorem exitCode_eq_zero_iff (cs : List CheckRec) :
    exitCode cs = 0 ↔ ∀ c ∈ cs, c.ok = true := by
  unfold exitCode failedChecks
  constructor
  · intro h c hc
    by_cases h0 : (cs.filter (fun c => !c.ok)).length = 0
    · rw [List.length_eq_zero, List.filter_eq_nil_iff] at h0
      have := h0 c hc
      simp at this
      exact this
    · rw [if_neg h0] at h
      exact absurd h one_ne_zero
  · intro h
    rw [if_pos]
    rw [List.length_eq_zero, List.filter_eq_nil_iff]
    intro c hc
    rw [h c hc]
    simp

theorem exitCode_eq_one_iff (cs : List CheckRec) :
    exitCode cs = 1 ↔ ∃ c ∈ cs, c.ok = false := by
  constructor
  · intro h
    by_contra hno
    push_neg at hno
    have hall : ∀ c ∈ cs, c.ok = true := by
      intro c hc
      have := hno c hc
      cases hok : c.ok with
      | false => exact absurd hok this
      | true => rfl
    have h0 : exitCode cs = 0 := (exitCode_eq_zero_iff cs).mpr hall
    rw [h0] at h
    exact absurd h.symm one_ne_zero
  · intro ⟨c, hc, hok⟩
    unfold exitCode failedChecks
    rw [if_neg]
    intro h0
    rw [List.length_eq_zero, List.filter_eq_nil_iff] at h0
    have := h0 c hc
    rw [hok] at this
    simp at this

theorem checkLine_mem_outputOf {c : CheckRec} {cs : List CheckRec} (h : c ∈ cs) :
    checkLine c ∈ outputOf cs := by
  unfold outputOf
  rw [List.mem_flatMap]
  exact ⟨c, h, List.mem_cons_self _ _⟩

/-- Claim C10: the validation script is total over file-system states —
on every state of the inspected files it terminates without an uncaught
exception (every content read is guarded by `existsSync`, and the
`JSON.parse` of `mcp.json` and of `package.json` sits in a `try/catch`
that records a failed check), ending in exit code 0 or 1. -/
theorem validation_script_total (parse : String → Option JVal) (fs : FS) :
    (runValidation parse fs).1 = Except.ok () ∧
    (exitCode (runChecks parse fs) = 0 ∨ exitCode (runChecks parse fs) = 1) := by
  obtain ⟨a, st', h⟩ := totalSM_validationScript parse fs []
  constructor
  · have : runValidation parse fs = (Except.ok a, st') := h
    rw [this]
  · by_cases h0 : failedChecks (runChecks parse fs) = 0
    · exact Or.inl (by rw [exitCode, if_pos h0])
    · exact Or.inr (by rw [exitCode, if_neg h0])

/-- Claim C1 (amended): the script exits 0 exactly when every check it
performed passed and 1 exactly when at least one failed, and every
failed check has its violation line printed. (The original claim's
stronger clause — that each check is executed regardless of earlier
failures, so the output enumerates all violations — is refuted by the
counterexample below: inside the mcp.json try block, a missing
`mcpServers` object makes the `.figma` access throw, skipping the
remaining checks of that block.) -/
theorem validation_exit_iff (parse : String → Option JVal) (fs : FS) :
    (exitCode (runChecks parse fs) = 0 ↔ ∀ c ∈ runChecks parse fs, c.ok = true) ∧
    (exitCode (runChecks parse fs) = 1 ↔ ∃ c ∈ runChecks parse fs, c.ok = false) ∧
    (∀ c ∈ runChecks parse fs, c.ok = false →
      ("❌ " ++ c.name) ∈ outputOf (runChecks parse fs)) := by
  refine ⟨exitCode_eq_zero_iff _, exitCode_eq_one_iff _, ?_⟩
  intro c hc hok
  have hline : checkLine c = "❌ " ++ c.name := by
    rw [checkLine, hok]
    simp
  rw [← hline]
  exact checkLine_mem_outputOf hc

/-- Claim C1 counterexample: on a state whose `power/mcp.json` parses to
an object without an `mcpServers` field, the run fails (exit 1) and the
check "Has mcpServers object" fails, yet the "Configures Figma server"
check — which the script performs and reports on other states, as the
second state shows — is never executed and its violation line is never
printed: checks after an earlier failure inside the try block are
skipped, so the output does not enumerate all violations. -/
theorem validation_missing_violation_counterexample :
    exitCode (runChecks jsonParseLit fsNoMcpServers) = 1 ∧
    (∃ c ∈ runChecks jsonParseLit fsNoMcpServers,
      c.ok = false ∧ c.name = "Has mcpServers object") ∧
    (∀ c ∈ runChecks jsonParseLit fsNoMcpServers, c.name ≠ "Configures Figma server") ∧
    ("❌ Configures Figma server" ∉ outputOf (runChecks jsonParseLit fsNoMcpServers)) ∧
    (∃ c ∈ runChecks jsonParseLit fsEmptyServers,
      c.name = "Configures Figma server" ∧ c.ok = false) := by
  decide

theorem listInfix_iff {α : Type} [BEq α] [LawfulBEq α] (xs ys : List α) :
    listInfix xs ys = true ↔ xs <:+: ys := by
  induction ys with
  | nil =>
    rw [listInfix, List.isEmpty_iff, List.infix_nil]
  | cons y ys ih =>
    rw [listInfix, Bool.or_eq_true, ih, List.isPrefixOf_iff_prefix, List.infix_cons_iff]

theorem mem_matchK {K : Nat} {q : String} {registry : List KnowledgeModule}
    {res : MatchResult} (h : res ∈ matchK K q registry) :
    (matchK K q registry = [defaultMatchResult] ∧ res = defaultMatchResult) ∨
    ∃ m ∈ registry, res = matchResultOf q m ∧ scoreModule q m ≠ 0 := by
  simp only [matchK] at h ⊢
  split_ifs at h ⊢ with hemp
  · rw [List.mem_singleton] at h
    exact Or.inl ⟨rfl, h⟩
  · right
    have h1 := List.mem_of_mem_take h
    rw [List.mem_map] at h1
    obtain ⟨p, hp, rfl⟩ := h1
    rw [(List.perm_insertionSort _ _).mem_iff, List.mem_filter] at hp
    obtain ⟨hsc, hpos⟩ := hp
    rw [List.mem_map] at hsc
    obtain ⟨m, hm, rfl⟩ := hsc
    refine ⟨m, hm, rfl, ?_⟩
    simpa [matchResultOf, bne_iff_ne] using hpos

/-- Claim C3: the Matcher never returns an empty list — whenever no
module of the registry scores above 0 (in particular for the empty
query and for a query matching no keyword), the result is exactly the
single designated default module, the general-guidance
`ui-design-principles.md`. -/
theorem matcher_fallback_default (K : Nat) (q : String) (registry : List KnowledgeModule) :
    matchK K q registry ≠ [] ∧
    ((∀ m ∈ registry, scoreModule q m = 0) → matchK K q registry = [defaultMatchResult]) := by
  constructor
  · simp only [matchK]
    split_ifs with h
    · simp
    · intro hnil
      rw [hnil] at h
      exact h rfl
  · intro hall
    have hpos : (registry.map (fun m => (m, matchResultOf q m))).filter
        (fun p => p.2.score != 0) = [] := by
      rw [List.filter_eq_nil_iff]
      intro p hp
      rw [List.mem_map] at hp
      obtain ⟨m, hm, rfl⟩ := hp
      simp [matchResultOf, hall m hm]
    simp only [matchK, hpos]
    simp [List.insertionSort]

/-- Claim C3 witness: on the source registry, both the empty query and
the unmatched query `xyzzyunmatchable` score every module 0, and the
Matcher returns exactly the default module. -/
theorem matcher_fallback_default_witness :
    ((∀ m ∈ uiRegistry, scoreModule "" m = 0) ∧
      matchK matchBound "" uiRegistry = [defaultMatchResult]) ∧
    ((∀ m ∈ uiRegistry, scoreModule "xyzzyunmatchable" m = 0) ∧
      matchK matchBound "xyzzyunmatchable" uiRegistry = [defaultMatchResult]) :=
  ⟨⟨by decide, (matcher_fallback_default matchBound "" uiRegistry).2 (by decide)⟩,
   ⟨by decide, (matcher_fallback_default matchBound "xyzzyunmatchable" uiRegistry).2 (by decide)⟩⟩

/-- Claim C4: for every query and registry the Matcher returns at most
`K = matchBound` modules; the cap is applied after sorting, and the
fallback returns a single module, so the bound always holds. -/
theorem matcher_respects_bound (q : String) (registry : List KnowledgeModule) :
    (matchQuery q registry).length ≤ matchBound := by
  unfold matchQuery
  simp only [matchK]
  split_ifs with h
  · rw [List.length_singleton, matchBound]
    exact Nat.one_le_iff_ne_zero.mpr (by simp)
  · rw [List.length_take]
    exact min_le_left _ _

/-- Claim C5 (amended): every result's score is the sum of the weights
of its matched keywords, where a keyword's weight is its number of
words; a score-0 result appears only as the fallback — when it does, the
whole result is exactly the default module. (The original claim's
unconditional "score-0 modules are absent from the result" is refuted
by the fallback counterexample below.) -/
theorem matcher_score_sum (q : String) (registry : List KnowledgeModule)
    (res : MatchResult) (hres : res ∈ matchQuery q registry) :
    res.score = (res.matchedKeywords.map weight).sum ∧
    (∀ kw, weight kw = (normalizeWords kw).length) ∧
    (res.score = 0 → matchQuery q registry = [defaultMatchResult]) := by
  rcases mem_matchK hres with ⟨heq, rfl⟩ | ⟨m, hm, rfl, hnz⟩
  · exact ⟨rfl, fun kw => rfl, fun _ => heq⟩
  · exact ⟨rfl, fun kw => rfl, fun h0 => absurd h0 hnz⟩

/-- Claim C5 witness: for the query `form` the accessibility-standards
module is in the result with score 1 = weight of the matched keyword
`form`. -/
theorem matcher_score_sum_witness :
    (⟨"accessibility-standards.md", 1, ["form"]⟩ : MatchResult) ∈ matchQuery "form" uiRegistry ∧
    ((⟨"accessibility-standards.md", 1, ["form"]⟩ : MatchResult).score =
        (((⟨"accessibility-standards.md", 1, ["form"]⟩ : MatchResult).matchedKeywords).map weight).sum ∧
      (∀ kw, weight kw = (normalizeWords kw).length) ∧
      ((⟨"accessibility-standards.md", 1, ["form"]⟩ : MatchResult).score = 0 →
        matchQuery "form" uiRegistry = [defaultMatchResult])) :=
  ⟨by decide, matcher_score_sum "form" uiRegistry _ (by decide)⟩

/-- Claim C5 counterexample: for the empty query the result is the
fallback default module, whose score is 0 — a score-0 module present in
the result, contradicting the claim's unconditional "every module whose
score is 0 is absent from the result". -/
theorem matcher_zero_score_in_result :
    (∃ res ∈ matchQuery "" uiRegistry, res.score = 0) ∧
    matchQuery "" uiRegistry = [defaultMatchResult] := by
  decide

/-- Claim C6: for every module of the registry and every query whose
normalized word sequence contains one of the module's keyword phrases
contiguously, the module's id appears in the Matcher's result, provided
the keyword is a non-empty phrase and the bound `K` is large enough
(at least the registry size) not to exclude it. -/
theorem matcher_keyword_coverage (K : Nat) (q : String) (registry : List KnowledgeModule)
    (m : KnowledgeModule) (kw : String)
    (hm : m ∈ registry) (hkw : kw ∈ m.keywords)
    (hw : normalizeWords kw ≠ [])
    (hc : normalizeWords kw <:+: normalizeWords q)
    (hK : registry.length ≤ K) :
    m.id ∈ (matchK K q registry).map (fun r => r.moduleId) := by
  have hmatch : keywordMatches q kw = true := by
    rw [keywordMatches, listInfix_iff]
    exact hc
  have hkwmem : kw ∈ matchedKeywords q m := List.mem_filter.mpr ⟨hkw, hmatch⟩
  have hscore : scoreModule q m ≠ 0 := by
    intro h0
    have hle : weight kw ≤ scoreModule q m :=
      List.single_le_sum (fun x _ => Nat.zero_le x) _ (List.mem_map_of_mem weight hkwmem)
    rw [h0, Nat.le_zero] at hle
    exact hw (List.length_eq_zero.mp hle)
  have hposmem : (m, matchResultOf q m) ∈ (registry.map
      (fun m => (m, matchResultOf q m))).filter (fun p => p.2.score != 0) :=
    List.mem_filter.mpr ⟨List.mem_map_of_mem _ hm, by
      simpa [matchResultOf, bne_iff_ne] using hscore⟩
  have hsortmem : (m, matchResultOf q m) ∈ List.insertionSort
      (fun a b => matchLE a b = true) ((registry.map
        (fun m => (m, matchResultOf q m))).filter (fun p => p.2.score != 0)) :=
    ((List.perm_insertionSort _ _).mem_iff).mpr hposmem
  have hlen : ((List.insertionSort (fun a b => matchLE a b = true) ((registry.map
      (fun m => (m, matchResultOf q m))).filter (fun p => p.2.score != 0))).map
        (fun p => p.2)).length ≤ K := by
    rw [List.length_map, (List.perm_insertionSort _ _).length_eq]
    calc ((registry.map (fun m => (m, matchResultOf q m))).filter
          (fun p => p.2.score != 0)).length
        ≤ (registry.map (fun m => (m, matchResultOf q m))).length :=
          List.length_filter_le _ _
      _ = registry.length := List.length_map _ _
      _ ≤ K := hK
  have hmem2 : matchResultOf q m ∈ (List.insertionSort (fun a b => matchLE a b = true)
      ((registry.map (fun m => (m, matchResultOf q m))).filter
        (fun p => p.2.score != 0))).map (fun p => p.2) :=
    List.mem_map_of_mem _ hsortmem
  simp only [matchK]
  rw [List.take_of_length_le hlen, if_neg (by
    rw [List.isEmpty_iff]
    exact fun hnil => (List.ne_nil_of_mem hmem2) hnil)]
  exact List.mem_map_of_mem _ hmem2

/-- Claim C6 witness: the query `which component library should I use`
contains the keyword phrase `component library` of the
component-libraries module, and with the bound at the registry size the
module's id is in the result. -/
theorem matcher_keyword_coverage_witness :
    (componentLibrariesModule ∈ uiRegistry ∧
      "component library" ∈ componentLibrariesModule.keywords ∧
      normalizeWords "component library" ≠ [] ∧
      normalizeWords "component library" <:+:
        normalizeWords "which component library should I use" ∧
      uiRegistry.length ≤ 11) ∧
    componentLibrariesModule.id ∈
      (matchK 11 "which component library should I use" uiRegistry).map (fun r => r.moduleId) :=
  ⟨⟨by decide, by decide, by decide, (listInfix_iff _ _).mp (by decide), by decide⟩,
    matcher_keyword_coverage 11 "which component library should I use" uiRegistry
      componentLibrariesModule "component library" (by decide) (by decide) (by decide)
      ((listInfix_iff _ _).mp (by decide)) (by decide)⟩

/-- Claim C7: loading is idempotent per session — for a resolvable
module id not yet in the session, the first `load` returns its content
and appends the id, the second `load` returns no duplicate and leaves
the session unchanged, and afterwards the session holds the id exactly
once. -/
theorem loader_idempotent (registry : List KnowledgeModule) (mid c : String) (s : Session)
    (hres : resolveContent registry mid = some c)
    (hnot : mid ∉ s.loadedModuleIds) :
    load [mid] s registry =
      ([⟨mid, c⟩], [], { s with loadedModuleIds := s.loadedModuleIds ++ [mid] }) ∧
    load [mid] { s with loadedModuleIds := s.loadedModuleIds ++ [mid] } registry =
      ([], [], { s with loadedModuleIds := s.loadedModuleIds ++ [mid] }) ∧
    (s.loadedModuleIds ++ [mid]).count mid = 1 := by
  refine ⟨?_, ?_, ?_⟩
  · simp [load, loadGo, hnot, hres]
  · simp [load, loadGo]
  · rw [List.count_append, List.count_eq_zero.mpr hnot]
    simp

/-- Claim C7 witness: loading `alpha.md` twice into a fresh session. -/
theorem loader_idempotent_witness :
    (resolveContent loaderRegistry "alpha.md" = some "alpha body" ∧
      "alpha.md" ∉ emptySession.loadedModuleIds) ∧
    (load ["alpha.md"] emptySession loaderRegistry =
        ([⟨"alpha.md", "alpha body"⟩], [],
          { emptySession with
              loadedModuleIds := emptySession.loadedModuleIds ++ ["alpha.md"] }) ∧
      load ["alpha.md"]
          { emptySession with
              loadedModuleIds := emptySession.loadedModuleIds ++ ["alpha.md"] }
          loaderRegistry =
        ([], [],
          { emptySession with
              loadedModuleIds := emptySession.loadedModuleIds ++ ["alpha.md"] }) ∧
      (emptySession.loadedModuleIds ++ ["alpha.md"]).count "alpha.md" = 1) :=
  ⟨⟨by decide, by decide⟩,
    loader_idempotent loaderRegistry "alpha.md" "alpha body" emptySession (by decide) (by decide)⟩

theorem loadGo_spec (registry : List KnowledgeModule) :
    ∀ (ids : List String) (docs : List LoadedDocument) (failed : List String) (s : Session),
    ids.Nodup → (∀ i ∈ ids, i ∉ s.loadedModuleIds) →
    loadGo registry ids docs failed s =
      (docs ++ ids.filterMap (fun i => (resolveContent registry i).map
          (fun c => (⟨i, c⟩ : LoadedDocument))),
       failed ++ ids.filter (fun i => (resolveContent registry i).isNone),
       { s with loadedModuleIds := s.loadedModuleIds ++
          ids.filter (fun i => (resolveContent registry i).isSome) }) := by
  intro ids
  induction ids with
  | nil =>
    intro docs failed s _ _
    simp [loadGo]
  | cons i rest ih =>
    intro docs failed s hnd hdisj
    have hni : i ∉ s.loadedModuleIds := hdisj i (List.mem_cons_self i rest)
    obtain ⟨hirest, hndrest⟩ := List.nodup_cons.mp hnd
    rw [loadGo, if_neg hni]
    cases hres : resolveContent registry i with
    | none =>
      show loadGo registry rest docs (failed ++ [i]) s = _
      rw [ih docs (failed ++ [i]) s hndrest
        (fun j hj => hdisj j (List.mem_cons_of_mem i hj))]
      simp [hres, List.filterMap_cons, List.filter_cons]
    | some c =>
      have hdisj' : ∀ j ∈ rest, j ∉ s.loadedModuleIds ++ [i] := by
        intro j hj
        rw [List.mem_append, List.mem_singleton]
        rintro (hjl | rfl)
        · exact hdisj j (List.mem_cons_of_mem i hj) hjl
        · exact hirest hj
      show loadGo registry rest (docs ++ [⟨i, c⟩]) failed
        { s with loadedModuleIds := s.loadedModuleIds ++ [i] } = _
      rw [ih _ _ _ hndrest hdisj']
      simp [hres, List.filterMap_cons, List.filter_cons]

/-- Claim C8: failed content resolution is contained — for a turn's
(duplicate-free, not-yet-loaded) requested ids, every id whose
resolution fails is reported in the failed list, every other requested
id is still resolved and returned (a failing module never aborts the
turn), and the session is left uncorrupted: exactly the successfully
loaded ids are appended, in order, and the turn history is untouched. -/
theorem loader_error_containment (registry : List KnowledgeModule) (ids : List String)
    (s : Session) (hnd : ids.Nodup) (hdisj : ∀ i ∈ ids, i ∉ s.loadedModuleIds) :
    (∀ i ∈ ids, (resolveContent registry i).isNone → i ∈ (load ids s registry).2.1) ∧
    (∀ i ∈ ids, ∀ c, resolveContent registry i = some c →
      (⟨i, c⟩ : LoadedDocument) ∈ (load ids s registry).1) ∧
    (load ids s registry).2.2.loadedModuleIds =
      s.loadedModuleIds ++ ids.filter (fun i => (resolveContent registry i).isSome) ∧
    (load ids s registry).2.2.turnHistory = s.turnHistory := by
  have hchar := loadGo_spec registry ids [] [] s hnd hdisj
  rw [load, hchar]
  refine ⟨?_, ?_, rfl, rfl⟩
  · intro i hi hfail
    simp only [List.nil_append]
    rw [List.mem_filter]
    exact ⟨hi, hfail⟩
  · intro i hi c hc
    simp only [List.nil_append]
    rw [List.mem_filterMap]
    exact ⟨i, hi, by rw [hc]; rfl⟩

/-- Claim C8 witness: requesting `alpha.md`, the unresolvable
`broken.md` and `gamma.md` in one turn — the failure is reported, both
other modules load, and the session gains exactly the two loaded ids. -/
theorem loader_error_containment_witness :
    ((["alpha.md", "broken.md", "gamma.md"] : List String).Nodup ∧
      (∀ i ∈ (["alpha.md", "broken.md", "gamma.md"] : List String),
        i ∉ emptySession.loadedModuleIds)) ∧
    ((∀ i ∈ (["alpha.md", "broken.md", "gamma.md"] : List String),
        (resolveContent loaderRegistry i).isNone →
        i ∈ (load ["alpha.md", "broken.md", "gamma.md"] emptySession loaderRegistry).2.1) ∧
      (∀ i ∈ (["alpha.md", "broken.md", "gamma.md"] : List String),
        ∀ c, resolveContent loaderRegistry i = some c →
        (⟨i, c⟩ : LoadedDocument) ∈
          (load ["alpha.md", "broken.md", "gamma.md"] emptySession loaderRegistry).1) ∧
      (load ["alpha.md", "broken.md", "gamma.md"] emptySession loaderRegistry).2.2.loadedModuleIds =
        emptySession.loadedModuleIds ++
          (["alpha.md", "broken.md", "gamma.md"] : List String).filter
            (fun i => (resolveContent loaderRegistry i).isSome) ∧
      (load ["alpha.md", "broken.md", "gamma.md"] emptySession loaderRegistry).2.2.turnHistory =
        emptySession.turnHistory) :=
  ⟨⟨by decide, by decide⟩,
    loader_error_containment loaderRegistry ["alpha.md", "broken.md", "gamma.md"]
      emptySession (by decide) (by decide)⟩

/-- Claim C9: for every descriptor of the table, `availableCapabilities`
reports it available exactly when every required environment variable is
present and non-empty in the snapshot, and otherwise reports it
unavailable with the reason listing exactly the missing variables. -/
theorem capability_gate_spec (table : List CapabilityDescriptor)
    (env : List (String × String)) (d : CapabilityDescriptor) (hd : d ∈ table) :
    ∃ st ∈ availableCapabilities table env,
      st.name = d.name ∧
      (st.available = true ↔ ∀ v ∈ d.requiredEnv, ∃ s, envGet env v = some s ∧ s ≠ "") ∧
      (st.available = false ↔ st.missing ≠ []) ∧
      st.missing = d.requiredEnv.filter (fun v =>
        match envGet env v with
        | some s => s == ""
        | none => true) := by
  refine ⟨⟨d.name, (missingVars env d).isEmpty, missingVars env d⟩,
    List.mem_map_of_mem _ hd, rfl, ?_, ?_, rfl⟩
  · show (missingVars env d).isEmpty = true ↔ _
    rw [List.isEmpty_iff, missingVars, List.filter_eq_nil_iff]
    constructor
    · intro h v hv
      have hnp := h v hv
      cases hg : envGet env v with
      | none =>
        rw [hg] at hnp
        simp at hnp
      | some s =>
        rw [hg] at hnp
        refine ⟨s, rfl, ?_⟩
        simpa using hnp
    · intro h v hv
      obtain ⟨s, hg, hne⟩ := h v hv
      rw [hg]
      simpa using hne
  · show (missingVars env d).isEmpty = false ↔ missingVars env d ≠ []
    exact List.isEmpty_eq_false

/-- Claim C9 witness: the Figma capability requires `FIGMA_API_KEY`;
without it the gate reports it unavailable with exactly that variable
listed, and with it set the gate reports it available. -/
theorem capability_gate_spec_witness :
    (availableCapabilities [figmaCapability] envWithoutKey =
        [⟨"figma", false, ["FIGMA_API_KEY"]⟩] ∧
      availableCapabilities [figmaCapability] envWithKey = [⟨"figma", true, []⟩]) ∧
    (∃ st ∈ availableCapabilities [figmaCapability] envWithoutKey,
      st.name = figmaCapability.name ∧
      (st.available = true ↔
        ∀ v ∈ figmaCapability.requiredEnv, ∃ s, envGet envWithoutKey v = some s ∧ s ≠ "") ∧
      (st.available = false ↔ st.missing ≠ []) ∧
      st.missing = figmaCapability.requiredEnv.filter (fun v =>
        match envGet envWithoutKey v with
        | some s => s == ""
        | none => true)) :=
  ⟨⟨by decide, by decide⟩,
    capability_gate_spec [figmaCapability] envWithoutKey figmaCapability (by decide)⟩

theorem mem_validate_dupModule (registry : List KnowledgeModule)
    (table : List CapabilityDescriptor) (i : String) :
    Violation.duplicateModuleId i ∈ validate registry table ↔
      i ∈ registry.map (fun m => m.id) ∧
        1 < (registry.map (fun m => m.id)).count i := by
  simp [validate, List.mem_filter, and_comm]

theorem mem_validate_emptyKeywords (registry : List KnowledgeModule)
    (table : List CapabilityDescriptor) (i : String) :
    Violation.emptyKeywords i ∈ validate registry table ↔
      ∃ m ∈ registry, m.keywords = [] ∧ m.id = i := by
  simp [validate, List.mem_filter, List.isEmpty_iff, and_assoc]

theorem mem_validate_dupCapability (registry : List KnowledgeModule)
    (table : List CapabilityDescriptor) (n : String) :
    Violation.duplicateCapabilityName n ∈ validate registry table ↔
      n ∈ table.map (fun c => c.name) ∧
        1 < (table.map (fun c => c.name)).count n := by
  simp [validate, List.mem_filter, and_comm]

theorem mem_validate_emptyCommand (registry : List KnowledgeModule)
    (table : List CapabilityDescriptor) (n : String) :
    Violation.emptyConnectorCommand n ∈ validate registry table ↔
      ∃ c ∈ table, c.command = "" ∧ c.name = n := by
  simp [validate, List.mem_filter, and_assoc]

theorem not_nodup_iff_dup {α : Type} [DecidableEq α] (l : List α) :
    (¬ l.Nodup) ↔ ∃ a, a ∈ l ∧ 1 < l.count a := by
  rw [List.nodup_iff_count_le_one]
  push_neg
  constructor
  · intro ⟨a, ha⟩
    exact ⟨a, List.count_pos_iff.mp (by omega), ha⟩
  · intro ⟨a, _, ha⟩
    exact ⟨a, ha⟩

/-- Claim C2: startup validation reports a duplicate-module-id violation
exactly when two registry entries share an id, an empty-keywords
violation exactly when some module has an empty keyword set, a
duplicate-capability-name violation exactly when two capabilities share
a name, and an empty-connector-command violation exactly when some
capability's command is empty — and no such violation otherwise. -/
theorem validate_reports_violations (registry : List KnowledgeModule)
    (table : List CapabilityDescriptor) :
    ((∃ i, Violation.duplicateModuleId i ∈ validate registry table) ↔
      ¬ (registry.map (fun m => m.id)).Nodup) ∧
    ((∃ i, Violation.emptyKeywords i ∈ validate registry table) ↔
      ∃ m ∈ registry, m.keywords = []) ∧
    ((∃ n, Violation.duplicateCapabilityName n ∈ validate registry table) ↔
      ¬ (table.map (fun c => c.name)).Nodup) ∧
    ((∃ n, Violation.emptyConnectorCommand n ∈ validate registry table) ↔
      ∃ c ∈ table, c.command = "") := by
  refine ⟨?_, ?_, ?_, ?_⟩
  · rw [not_nodup_iff_dup]
    constructor
    · intro ⟨i, hi⟩
      rw [mem_validate_dupModule] at hi
      exact ⟨i, hi⟩
    · intro ⟨i, hi⟩
      exact ⟨i, (mem_validate_dupModule registry table i).mpr hi⟩
  · constructor
    · intro ⟨i, hi⟩
      rw [mem_validate_emptyKeywords] at hi
      obtain ⟨m, hm, hk, _⟩ := hi
      exact ⟨m, hm, hk⟩
    · intro ⟨m, hm, hk⟩
      exact ⟨m.id, (mem_validate_emptyKeywords registry table m.id).mpr ⟨m, hm, hk, rfl⟩⟩
  · rw [not_nodup_iff_dup]
    constructor
    · intro ⟨n, hn⟩
      rw [mem_validate_dupCapability] at hn
      exact ⟨n, hn⟩
    · intro ⟨n, hn⟩
      exact ⟨n, (mem_validate_dupCapability registry table n).mpr hn⟩
  · constructor
    · intro ⟨n, hn⟩
      rw [mem_validate_emptyCommand] at hn
      obtain ⟨c, hc, hcmd, _⟩ := hn
      exact ⟨c, hc, hcmd⟩
    · intro ⟨c, hc, hcmd⟩
      exact ⟨c.name, (mem_validate_emptyCommand registry table c.name).mpr ⟨c, hc, hcmd, rfl⟩⟩
